import Mathlib

/-!
Verification of the omnishard mock shard router, the encoder sink
accumulator and the polling backoff helper, shallowly embedded from the
Go sources (exporter/omnishard/mock_server.go and the test helper file).

Protobuf message types (generated code, not part of the sample) are
modelled from the data model section of the specification:
ShardDefinition, PartitionMap / ShardingConfig, EncodedRecord,
ExportRequest, ExportResponse.
-/

/-- A byte is modelled as a natural number; only the ordering of byte
values matters for the hash-key comparisons. A hash key is a byte slice
in Go, which may be nil; nil is modelled as none and a non-nil slice as
some of its byte list. -/
def HashKey : Type := Option (List Nat)

instance : DecidableEq HashKey := by
  unfold HashKey
  infer_instance

/-- Modelled from the spec: ShardDefinition is (shard_id, starting_key,
ending_key) where the keys are byte sequences (nil-able in Go). -/
structure ShardDefinition where
  shardId : Int
  startingHashKey : HashKey
  endingHashKey : HashKey
deriving DecidableEq

/-- Modelled from the spec: a PartitionMap (ShardingConfig message) is the
ordered collection of its ShardDefinitions. -/
structure ShardingConfig where
  shardDefinitions : List ShardDefinition
deriving DecidableEq

/-- Modelled from the spec: EncodedRecord carries a partition key, a span
count (the number of spans encoded into the record) and an opaque
payload. -/
structure EncodedRecord where
  partitionKey : String
  spanCount : Nat
  payload : List Nat
deriving DecidableEq

/-- Modelled from the spec: ExportRequest bundles the shard the client
believes owns the record together with the record itself. -/
structure ExportRequest where
  shard : ShardDefinition
  record : EncodedRecord
deriving DecidableEq

/-- Result codes of ExportResponse. The misspelling of MISTMATCH is the
one in the generated protobuf code used by mock_server.go. -/
inductive ResultCode where
  | OK
  | SHARD_CONFIG_MISTMATCH
deriving DecidableEq

/-- Modelled from the spec: ExportResponse carries a result code and an
optional sharding config (nil in Go when absent). -/
structure ExportResponse where
  resultCode : ResultCode
  shardingConfig : Option ShardingConfig
deriving DecidableEq

/-- bytes.Compare: lexicographic comparison of byte slices, returning
-1, 0 or 1. A strict prefix is smaller. -/
def bytesCompare : List Nat → List Nat → Int
  | [], [] => 0
  | [], _ :: _ => -1
  | _ :: _, [] => 1
  | a :: as, b :: bs =>
    if a < b then -1 else if b < a then 1 else bytesCompare as bs

/-- compareHashKey from mock_server.go: replace a nil slice by the empty
slice on either side, then bytes.Compare. -/
def compareHashKey (k1 k2 : HashKey) : Int :=
  bytesCompare (k1.getD []) (k2.getD [])

/-- shardIsPartOfConfig from mock_server.go: the shard is an exact match
of some definition in the config (same shard id, equal starting key and
equal ending key under compareHashKey). -/
def shardIsPartOfConfig (shard : ShardDefinition) (config : ShardingConfig) : Bool :=
  config.shardDefinitions.any fun s =>
    s.shardId == shard.shardId &&
    compareHashKey s.startingHashKey shard.startingHashKey == 0 &&
    compareHashKey s.endingHashKey shard.endingHashKey == 0

/-- gRPC incoming metadata: a finite map from header keys to lists of
values, modelled as an association list. -/
def Metadata : Type := List (String × List String)

/-- md.Get: the values stored under a key, the empty list when the key is
absent. -/
def mdGet (m : Metadata) (k : String) : List String :=
  match m.find? (fun p => p.1 == k) with
  | some p => p.2
  | none => []

/-- Errors returned by the gRPC handlers of the mock server. -/
inductive HeaderErr where
  | noMetadata
  | badHeader (k v : String) (got : List String)
deriving DecidableEq

/-- One required-header entry passes when the metadata holds exactly one
value under the key and that value is the expected one (the Go condition
is the negation: len of vals differs from 1, or the single value
differs). -/
def headerEntryOk (m : Metadata) (p : String × String) : Bool :=
  mdGet m p.1 == [p.2]

/-- The loop of checkRequiredHeaders over the configured entries: the
first failing entry produces the error. -/
def checkHeadersList (m : Metadata) : List (String × String) → Option HeaderErr
  | [] => none
  | p :: rest =>
    if headerEntryOk m p then checkHeadersList m rest
    else some (HeaderErr.badHeader p.1 p.2 (mdGet m p.1))

/-- checkRequiredHeaders from mock_server.go: trivially passes when no
headers are configured; with headers configured, fails when the context
carries no metadata, and otherwise checks every configured entry. -/
def checkRequiredHeaders (headers : List (String × String)) (md : Option Metadata) :
    Option HeaderErr :=
  if headers.length < 1 then none
  else
    match md with
    | none => some HeaderErr.noMetadata
    | some m => checkHeadersList m headers

/-- The state of the mock server visible to the claims: the gRPC server
wrapper (required headers), the mockServer fields (the random error flag,
the next-response fields, the authoritative config) and the sink the
receive callback appends to. -/
structure ServerState where
  headers : List (String × String)
  randomServerError : Bool
  nextResponseCode : ResultCode
  nextResponseShardingConfig : Option ShardingConfig
  config : ShardingConfig
  sinkRequests : List ExportRequest
  sinkRecords : List EncodedRecord
deriving DecidableEq

/-- The receive callback wired by runServer: mockServerSink.onReceive
appends the request and its record to the sink. -/
def onReceiveSink (s : ServerState) (request : ExportRequest) : ServerState :=
  { s with
    sinkRequests := s.sinkRequests ++ [request]
    sinkRecords := s.sinkRecords ++ [request.record] }

/-- Errors the Export handler can return instead of a response. -/
inductive GrpcErr where
  | headerError (e : HeaderErr)
  | unavailable
deriving DecidableEq

/-- Export from mock_server.go. The boolean randBelow stands for the
outcome of the random draw being below 0.1; the simulated Unavailable
error fires only when RandomServerError is set and the draw is below the
threshold. On a config mismatch the response carries the mismatch code
and the current config; on a match the receive callback runs and the
response carries the next-response fields. The returned state records
the effect on the sink. -/
def Export (s : ServerState) (md : Option Metadata) (randBelow : Bool)
    (request : ExportRequest) : Except GrpcErr ExportResponse × ServerState :=
  match checkRequiredHeaders s.headers md with
  | some e => (Except.error (GrpcErr.headerError e), s)
  | none =>
    if s.randomServerError && randBelow then
      (Except.error GrpcErr.unavailable, s)
    else if !shardIsPartOfConfig request.shard s.config then
      (Except.ok { resultCode := ResultCode.SHARD_CONFIG_MISTMATCH
                   shardingConfig := some s.config }, s)
    else
      (Except.ok { resultCode := s.nextResponseCode
                   shardingConfig := s.nextResponseShardingConfig },
       onReceiveSink s request)

/-- GetShardingConfig from mock_server.go: after the header check it
returns the current authoritative config and touches no state. -/
def getShardingConfig (s : ServerState) (md : Option Metadata) :
    Except GrpcErr ShardingConfig × ServerState :=
  match checkRequiredHeaders s.headers md with
  | some e => (Except.error (GrpcErr.headerError e), s)
  | none => (Except.ok s.config, s)

/-- The result code of the Export outcome, none when the call returned an
error instead of a response. -/
def resultCodeOf (r : Except GrpcErr ExportResponse) : Option ResultCode :=
  match r with
  | Except.ok resp => some resp.resultCode
  | Except.error _ => none

/-- Repeated resubmission of the same ExportRequest against the same
server with the same metadata: exportIter n is the outcome of the call
number n, the state threading the sink effects of the earlier calls; rb
gives the random draw of each call. -/
def exportIter (md : Option Metadata) (rb : Nat → Bool) (request : ExportRequest) :
    ServerState → Nat → Except GrpcErr ExportResponse × ServerState
  | s, 0 => Export s md (rb 0) request
  | s, n + 1 => Export (exportIter md rb request s n).2 md (rb (n + 1)) request

/-- A span of the jaeger model; its contents never matter to the sink,
only its identity. -/
structure JaegerSpan where
  spanId : Nat
deriving DecidableEq

/-- Modelled from the spec: the encoding-failure taxonomy
(ENCODING_ERROR for a malformed item, SIZE_LIMIT_EXCEEDED for an
oversized batch); the EncoderErrorCode type itself is outside the
sample. -/
inductive EncoderErrorCode where
  | ENCODING_ERROR
  | SIZE_LIMIT_EXCEEDED
deriving DecidableEq

/-- The in-memory shard a record was encoded for; opaque to the sink. -/
structure ShardInMemConfig where
  shardId : Int
deriving DecidableEq

/-- encoderSink: accumulator of encoding outcomes. -/
structure EncoderSink where
  successSpanCount : Nat
  encodedRecords : List EncodedRecord
  failSpanCount : Nat
  failedSpans : List JaegerSpan
deriving DecidableEq

/-- The zero value of encoderSink. -/
def emptyEncoderSink : EncoderSink :=
  { successSpanCount := 0, encodedRecords := [], failSpanCount := 0, failedSpans := [] }

/-- encoderSink.onReady: add the span count of the record to the success
counter and append the record; the original spans and the target shard
are ignored by the sink. -/
def onReady (es : EncoderSink) (record : EncodedRecord)
    (originalSpans : List JaegerSpan) (shard : ShardInMemConfig) : EncoderSink :=
  { es with
    successSpanCount := es.successSpanCount + record.spanCount
    encodedRecords := es.encodedRecords ++ [record] }

/-- encoderSink.onFail: add the number of failed spans to the failure
counter and append the spans. -/
def onFail (es : EncoderSink) (failedSpans : List JaegerSpan)
    (code : EncoderErrorCode) : EncoderSink :=
  { es with
    failSpanCount := es.failSpanCount + failedSpans.length
    failedSpans := es.failedSpans ++ failedSpans }

/-- One call made on the sink. -/
inductive SinkEvent where
  | ready (record : EncodedRecord) (originalSpans : List JaegerSpan) (shard : ShardInMemConfig)
  | fail (failedSpans : List JaegerSpan) (code : EncoderErrorCode)
deriving DecidableEq

/-- Apply a sequence of onReady and onFail calls to a sink. -/
def applyEvents (es : EncoderSink) : List SinkEvent → EncoderSink
  | [] => es
  | SinkEvent.ready r sp sh :: rest => applyEvents (onReady es r sp sh) rest
  | SinkEvent.fail sp c :: rest => applyEvents (onFail es sp c) rest

/-- The waiting-interval sequence of WaitForN, in milliseconds: the
interval starts at 5 ms and, after each wait, doubles whenever it is
still below 500 ms. -/
def waitSeq : Nat → Nat
  | 0 => 5
  | n + 1 => if waitSeq n < 500 then 2 * waitSeq n else waitSeq n

deriving instance DecidableEq for Except

/-- The key of a hash-key slice after the nil-to-empty mapping that
compareHashKey performs (this definition follows the words of the claim;
it is compared against the source definitions). -/
def denilKey (k : HashKey) : List Nat := k.getD []

/-- Replace nil hash keys of a shard definition by empty ones. -/
def normalizeShardKeys (sd : ShardDefinition) : ShardDefinition :=
  { sd with
    startingHashKey := some (denilKey sd.startingHashKey)
    endingHashKey := some (denilKey sd.endingHashKey) }

/-- C9: nil and empty hash keys are interchangeable: compareHashKey is
lexicographic byte comparison after mapping nil to the empty sequence,
and shardIsPartOfConfig is unchanged when nil keys are replaced by empty
keys, on the request shard or throughout the config. -/
theorem C9_nil_empty_interchangeable :
    (∀ k1 k2 : HashKey, compareHashKey k1 k2 = bytesCompare (denilKey k1) (denilKey k2)) ∧
    (∀ (shard : ShardDefinition) (config : ShardingConfig),
      shardIsPartOfConfig (normalizeShardKeys shard) config =
        shardIsPartOfConfig shard config ∧
      shardIsPartOfConfig shard ⟨config.shardDefinitions.map normalizeShardKeys⟩ =
        shardIsPartOfConfig shard config) := by
  refine ⟨fun k1 k2 => rfl, fun shard config => ⟨rfl, ?_⟩⟩
  show (config.shardDefinitions.map normalizeShardKeys).any _ = config.shardDefinitions.any _
  rw [List.any_map]
  rfl

/-- If some configured entry fails against the metadata, the header-check
loop reports an error. -/
theorem checkHeadersList_fail {m : Metadata} {headers : List (String × String)}
    {p : String × String} (hmem : p ∈ headers) (hbad : headerEntryOk m p = false) :
    ∃ e, checkHeadersList m headers = some e := by
  induction headers with
  | nil => cases hmem
  | cons q rest ih =>
    unfold checkHeadersList
    rcases List.mem_cons.mp hmem with h | h
    · subst h
      rw [hbad]
      exact ⟨_, rfl⟩
    · by_cases hq : headerEntryOk m q
      · rw [hq]
        simp only [if_true]
        exact ih h
      · rw [Bool.not_eq_true] at hq
        rw [hq]
        exact ⟨_, rfl⟩

/-- A metadata list with two or more values under a key does not pass the
single-exact-value test of a configured entry for that key. -/
theorem headerEntryOk_false_of_two {m : Metadata} {k v : String}
    (h : 2 ≤ (mdGet m k).length) : headerEntryOk m (k, v) = false := by
  unfold headerEntryOk
  rw [beq_eq_false_iff_ne]
  intro he
  rw [he] at h
  simp at h

/-- C10: header-check edge cases: with no configured headers every
request passes; with configured headers, a request with no metadata is
rejected, and a request carrying two or more values under a required key
is rejected. -/
theorem C10_header_edge_cases :
    (∀ md : Option Metadata, checkRequiredHeaders [] md = none) ∧
    (∀ headers : List (String × String), headers ≠ [] →
      checkRequiredHeaders headers none = some HeaderErr.noMetadata) ∧
    (∀ (headers : List (String × String)) (m : Metadata) (k v : String),
      (k, v) ∈ headers → 2 ≤ (mdGet m k).length →
      ∃ e, checkRequiredHeaders headers (some m) = some e) := by
  refine ⟨fun md => rfl, fun headers hne => ?_, fun headers m k v hmem hlen => ?_⟩
  · unfold checkRequiredHeaders
    rw [if_neg]
    intro hlt
    exact hne (List.eq_nil_of_length_eq_zero (by omega))
  · have hne : headers ≠ [] := by
      intro h
      subst h
      cases hmem
    obtain ⟨e, he⟩ := checkHeadersList_fail hmem (headerEntryOk_false_of_two hlen)
    refine ⟨e, ?_⟩
    unfold checkRequiredHeaders
    rw [if_neg (fun hlt => hne (List.eq_nil_of_length_eq_zero (by omega)))]
    exact he

/-- C10 witness: a configured key, once with no metadata on the context,
once carrying two copies of the expected value, is rejected both times. -/
theorem C10_witness :
    checkRequiredHeaders [("x-api-key", "secret")] none = some HeaderErr.noMetadata ∧
    (∃ e, checkRequiredHeaders [("x-api-key", "secret")]
      (some [("x-api-key", ["secret", "secret"])]) = some e) :=
  ⟨C10_header_edge_cases.2.1 [("x-api-key", "secret")] (by simp),
   C10_header_edge_cases.2.2 [("x-api-key", "secret")] [("x-api-key", ["secret", "secret"])]
     "x-api-key" "secret" (by simp) (by decide)⟩

/-- When the header check fails, Export returns the failure and changes
nothing. -/
theorem Export_of_header_fail {s : ServerState} {md : Option Metadata} {e : HeaderErr}
    (he : checkRequiredHeaders s.headers md = some e) (rb : Bool) (req : ExportRequest) :
    Export s md rb req = (Except.error (GrpcErr.headerError e), s) := by
  unfold Export
  rw [he]

/-- When the header check fails, GetShardingConfig returns the failure
and changes nothing. -/
theorem getShardingConfig_of_header_fail {s : ServerState} {md : Option Metadata}
    {e : HeaderErr} (he : checkRequiredHeaders s.headers md = some e) :
    getShardingConfig s md = (Except.error (GrpcErr.headerError e), s) := by
  unfold getShardingConfig
  rw [he]

/-- When some configured header is absent from the metadata or carries a
wrong value set, the header check reports an error. -/
theorem checkRequiredHeaders_fail {s : ServerState} {md : Option Metadata} {k v : String}
    (hmem : (k, v) ∈ s.headers)
    (hbad : ∀ m, md = some m →
      mdGet m k = [] ∨ ∃ w, mdGet m k = [w] ∧ w ≠ v) :
    ∃ e, checkRequiredHeaders s.headers md = some e := by
  have hne : s.headers ≠ [] := by
    intro h
    rw [h] at hmem
    cases hmem
  have hlen : ¬ s.headers.length < 1 :=
    fun hlt => hne (List.eq_nil_of_length_eq_zero (by omega))
  cases md with
  | none =>
    refine ⟨HeaderErr.noMetadata, ?_⟩
    unfold checkRequiredHeaders
    rw [if_neg hlen]
  | some m =>
    have hfail : headerEntryOk m (k, v) = false := by
      unfold headerEntryOk
      rw [beq_eq_false_iff_ne]
      rcases hbad m rfl with h | ⟨w, hw, hwv⟩
      · rw [h]
        simp
      · rw [hw]
        simp only [ne_eq, List.cons.injEq, and_true]
        exact fun hc => hwv hc
    obtain ⟨e, he⟩ := checkHeadersList_fail hmem hfail
    refine ⟨e, ?_⟩
    unfold checkRequiredHeaders
    rw [if_neg hlen]
    exact he

/-- C3: with required headers configured, a request whose metadata lacks
a configured key or carries a different value under it is rejected by
both RPCs before any shard matching or record delivery: Export and
GetShardingConfig return a header error and the server state, the sink
included, is untouched, whatever the shard of the request. -/
theorem C3_header_reject (s : ServerState) (md : Option Metadata) (rb : Bool)
    (req : ExportRequest) (k v : String)
    (hmem : (k, v) ∈ s.headers)
    (hbad : ∀ m, md = some m →
      mdGet m k = [] ∨ ∃ w, mdGet m k = [w] ∧ w ≠ v) :
    (∃ e, (Export s md rb req).1 = Except.error (GrpcErr.headerError e)) ∧
    (Export s md rb req).2 = s ∧
    (∃ e, (getShardingConfig s md).1 = Except.error (GrpcErr.headerError e)) ∧
    (getShardingConfig s md).2 = s := by
  obtain ⟨e, he⟩ := checkRequiredHeaders_fail hmem hbad
  rw [Export_of_header_fail he rb req, getShardingConfig_of_header_fail he]
  exact ⟨⟨e, rfl⟩, rfl, ⟨e, rfl⟩, rfl⟩

/-- A shard definition used in concrete instances: shard 1 over the range
from the empty key to the byte of the letter m. -/
def shardM1 : ShardDefinition :=
  { shardId := 1, startingHashKey := some [], endingHashKey := some [109] }

/-- A one-shard config used in concrete instances. -/
def cfgM : ShardingConfig := { shardDefinitions := [shardM1] }

/-- A record used in concrete instances. -/
def recApple : EncodedRecord := { partitionKey := "apple", spanCount := 2, payload := [1, 2] }

/-- A request whose shard matches cfgM exactly. -/
def reqGood : ExportRequest := { shard := shardM1, record := recApple }

/-- A request whose shard is no exact match of any entry of cfgM. -/
def reqBad : ExportRequest :=
  { shard := { shardId := 2, startingHashKey := some [109], endingHashKey := some [] }
    record := recApple }

/-- A server with no required headers, simulation off, default
next-response fields and config cfgM. -/
def srvPlain : ServerState :=
  { headers := [], randomServerError := false, nextResponseCode := ResultCode.OK
    nextResponseShardingConfig := none, config := cfgM
    sinkRequests := [], sinkRecords := [] }

/-- srvPlain with a required header configured. -/
def srvAuth : ServerState :=
  { srvPlain with headers := [("x-api-key", "secret")] }

/-- srvPlain with the next-response code knob set to the mismatch code. -/
def srvKnob : ServerState :=
  { srvPlain with nextResponseCode := ResultCode.SHARD_CONFIG_MISTMATCH }

/-- C3 witness: on a server requiring the x-api-key header, a call that
carries no metadata is rejected by both RPCs and the state is unchanged,
although the shard of the request matches the config. -/
theorem C3_witness :
    ("x-api-key", "secret") ∈ srvAuth.headers ∧
    shardIsPartOfConfig reqGood.shard srvAuth.config = true ∧
    ((∃ e, (Export srvAuth none false reqGood).1 = Except.error (GrpcErr.headerError e)) ∧
     (Export srvAuth none false reqGood).2 = srvAuth ∧
     (∃ e, (getShardingConfig srvAuth none).1 = Except.error (GrpcErr.headerError e)) ∧
     (getShardingConfig srvAuth none).2 = srvAuth) :=
  ⟨by decide, by decide,
   C3_header_reject srvAuth none false reqGood "x-api-key" "secret" (by decide)
     (fun m h => Option.noConfusion h)⟩

/-- C1 counterexample: a request whose shard mismatches the config, sent
without the metadata a configured required header demands, is answered
with a header error, not with a SHARD_CONFIG_MISTMATCH response carrying
the map. -/
theorem C1_counterexample :
    shardIsPartOfConfig reqBad.shard srvAuth.config = false ∧
    (Export srvAuth none false reqBad).1 =
      Except.error (GrpcErr.headerError HeaderErr.noMetadata) ∧
    (Export srvAuth none false reqBad).1 ≠
      Except.ok { resultCode := ResultCode.SHARD_CONFIG_MISTMATCH
                  shardingConfig := some srvAuth.config } := by
  refine ⟨by decide, rfl, fun h => ?_⟩
  rw [show (Export srvAuth none false reqBad).1 =
    Except.error (GrpcErr.headerError HeaderErr.noMetadata) from rfl] at h
  exact Except.noConfusion h

/-- C1 as amended: provided the header check passes and the simulated
transient error does not fire, Export answers a request whose shard is
not an exact match of the config with the mismatch code, attaches the
current authoritative config, and changes nothing; in particular the
record is not delivered to the receive callback. -/
theorem C1_export_mismatch (s : ServerState) (md : Option Metadata) (rb : Bool)
    (req : ExportRequest)
    (hh : checkRequiredHeaders s.headers md = none)
    (hr : (s.randomServerError && rb) = false)
    (hm : shardIsPartOfConfig req.shard s.config = false) :
    (Export s md rb req).1 =
      Except.ok { resultCode := ResultCode.SHARD_CONFIG_MISTMATCH
                  shardingConfig := some s.config } ∧
    (Export s md rb req).2 = s := by
  unfold Export
  rw [hh, hr, hm]
  simp

/-- C1 witness: the amended mismatch behaviour at a concrete server and
request. -/
theorem C1_witness :
    checkRequiredHeaders srvPlain.headers none = none ∧
    (srvPlain.randomServerError && false) = false ∧
    shardIsPartOfConfig reqBad.shard srvPlain.config = false ∧
    ((Export srvPlain none false reqBad).1 =
      Except.ok { resultCode := ResultCode.SHARD_CONFIG_MISTMATCH
                  shardingConfig := some srvPlain.config } ∧
     (Export srvPlain none false reqBad).2 = srvPlain) :=
  ⟨rfl, rfl, by decide,
   C1_export_mismatch srvPlain none false reqBad rfl rfl (by decide)⟩

/-- C2 counterexample: on a server whose next-response code knob is set
to the mismatch code, a request whose shard matches the config exactly,
with the header check passing and the simulation off, is answered with
that code rather than OK. -/
theorem C2_counterexample :
    shardIsPartOfConfig reqGood.shard srvKnob.config = true ∧
    checkRequiredHeaders srvKnob.headers none = none ∧
    srvKnob.randomServerError = false ∧
    (Export srvKnob none false reqGood).1 =
      Except.ok { resultCode := ResultCode.SHARD_CONFIG_MISTMATCH
                  shardingConfig := none } ∧
    (Export srvKnob none false reqGood).1 ≠
      Except.ok { resultCode := ResultCode.OK, shardingConfig := none } := by
  refine ⟨by decide, rfl, rfl, rfl, fun h => ?_⟩
  rw [show (Export srvKnob none false reqGood).1 =
    Except.ok { resultCode := ResultCode.SHARD_CONFIG_MISTMATCH
                shardingConfig := none } from rfl] at h
  have h2 := Except.ok.inj h
  have h3 := congrArg ExportResponse.resultCode h2
  exact ResultCode.noConfusion h3

/-- C2 as amended: provided the header check passes, the simulated
transient error does not fire, and the next-response knobs hold their
defaults (code OK, no config), Export delivers the record and the
request to the receive callback and answers a request whose shard
matches the config exactly with OK and no attached map; only the rest of
the state is untouched. -/
theorem C2_export_match_ok (s : ServerState) (md : Option Metadata) (rb : Bool)
    (req : ExportRequest)
    (hh : checkRequiredHeaders s.headers md = none)
    (hr : (s.randomServerError && rb) = false)
    (hm : shardIsPartOfConfig req.shard s.config = true)
    (hc : s.nextResponseCode = ResultCode.OK)
    (hs : s.nextResponseShardingConfig = none) :
    (Export s md rb req).1 =
      Except.ok { resultCode := ResultCode.OK, shardingConfig := none } ∧
    (Export s md rb req).2 =
      { s with sinkRequests := s.sinkRequests ++ [req]
               sinkRecords := s.sinkRecords ++ [req.record] } := by
  unfold Export
  rw [hh, hr, hm]
  simp [onReceiveSink, hc, hs]

/-- C2 witness: the amended matched-request behaviour at a concrete
server and request. -/
theorem C2_witness :
    checkRequiredHeaders srvPlain.headers none = none ∧
    (srvPlain.randomServerError && false) = false ∧
    shardIsPartOfConfig reqGood.shard srvPlain.config = true ∧
    srvPlain.nextResponseCode = ResultCode.OK ∧
    srvPlain.nextResponseShardingConfig = none ∧
    ((Export srvPlain none false reqGood).1 =
      Except.ok { resultCode := ResultCode.OK, shardingConfig := none } ∧
     (Export srvPlain none false reqGood).2 =
      { srvPlain with sinkRequests := srvPlain.sinkRequests ++ [reqGood]
                      sinkRecords := srvPlain.sinkRecords ++ [reqGood.record] }) :=
  ⟨rfl, rfl, by decide, rfl, rfl,
   C2_export_match_ok srvPlain none false reqGood rfl rfl (by decide) rfl rfl⟩

/-- C5: the transient-error simulation is isolated: with the flag off the
Unavailable branch is unreachable whatever the random draw; and whenever
the Unavailable error is returned, the state (the sink included) is
untouched and the same error would be returned for every other request,
so the error precedes shard matching and record delivery. -/
theorem C5_unavailable_isolated (s : ServerState) (md : Option Metadata) (rb : Bool)
    (req : ExportRequest) :
    (s.randomServerError = false →
      (Export s md rb req).1 ≠ Except.error GrpcErr.unavailable) ∧
    ((Export s md rb req).1 = Except.error GrpcErr.unavailable →
      (Export s md rb req).2 = s ∧
      ∀ req2 : ExportRequest,
        (Export s md rb req2).1 = Except.error GrpcErr.unavailable) := by
  unfold Export
  cases hchk : checkRequiredHeaders s.headers md with
  | some e =>
    refine ⟨fun hflag h => ?_, fun h => ?_⟩
    · have := Except.error.inj h
      exact GrpcErr.noConfusion this
    · have := Except.error.inj h
      exact GrpcErr.noConfusion this
  | none =>
    by_cases hba : (s.randomServerError && rb) = true
    · rw [if_pos hba]
      exact ⟨fun hflag h => by rw [hflag] at hba; exact Bool.noConfusion hba,
             fun h => ⟨rfl, fun req2 => by rw [if_pos hba]⟩⟩
    · rw [if_neg hba]
      refine ⟨fun hflag h => ?_, fun h => ?_⟩
      all_goals
        by_cases hm : (!shardIsPartOfConfig req.shard s.config) = true
      all_goals
        first
          | (rw [if_pos hm] at h; exact Except.noConfusion h)
          | (rw [if_neg hm] at h; exact Except.noConfusion h)

/-- C5 witness: on a server with the simulation off, Export never returns
the simulated Unavailable error, whatever the draw. -/
theorem C5_witness :
    (Export srvPlain none true reqGood).1 ≠ Except.error GrpcErr.unavailable :=
  (C5_unavailable_isolated srvPlain none true reqGood).1 rfl

/-- C6: GetShardingConfig is read-only: it never changes any server
state, and with the header check passing it returns exactly the current
authoritative config. -/
theorem C6_getShardingConfig_readonly (s : ServerState) (md : Option Metadata) :
    (getShardingConfig s md).2 = s ∧
    (checkRequiredHeaders s.headers md = none →
      (getShardingConfig s md).1 = Except.ok s.config) := by
  unfold getShardingConfig
  cases hchk : checkRequiredHeaders s.headers md with
  | some e => exact ⟨rfl, fun h => Option.noConfusion h⟩
  | none => exact ⟨rfl, fun h => rfl⟩

/-- C6 witness: the read-only config fetch at a concrete server. -/
theorem C6_witness :
    checkRequiredHeaders srvPlain.headers none = none ∧
    ((getShardingConfig srvPlain none).2 = srvPlain ∧
     (getShardingConfig srvPlain none).1 = Except.ok srvPlain.config) :=
  ⟨rfl, (C6_getShardingConfig_readonly srvPlain none).1,
   (C6_getShardingConfig_readonly srvPlain none).2 rfl⟩

/-- Export touches nothing of the server state but the sink. -/
theorem Export_state_frame (s : ServerState) (md : Option Metadata) (rb : Bool)
    (req : ExportRequest) :
    ((Export s md rb req).2).headers = s.headers ∧
    ((Export s md rb req).2).randomServerError = s.randomServerError ∧
    ((Export s md rb req).2).nextResponseCode = s.nextResponseCode ∧
    ((Export s md rb req).2).nextResponseShardingConfig = s.nextResponseShardingConfig ∧
    ((Export s md rb req).2).config = s.config := by
  unfold Export
  cases hchk : checkRequiredHeaders s.headers md with
  | some e => exact ⟨rfl, rfl, rfl, rfl, rfl⟩
  | none =>
    by_cases hba : (s.randomServerError && rb) = true
    · rw [if_pos hba]
      exact ⟨rfl, rfl, rfl, rfl, rfl⟩
    · rw [if_neg hba]
      by_cases hm : (!shardIsPartOfConfig req.shard s.config) = true
      · rw [if_pos hm]
        exact ⟨rfl, rfl, rfl, rfl, rfl⟩
      · rw [if_neg hm]
        exact ⟨rfl, rfl, rfl, rfl, rfl⟩

/-- A single Export call under passing headers, a matching shard, the OK
next-response code and the simulation off answers OK. -/
theorem Export_ok_step (s : ServerState) (md : Option Metadata) (rb : Bool)
    (req : ExportRequest)
    (hh : checkRequiredHeaders s.headers md = none)
    (hm : shardIsPartOfConfig req.shard s.config = true)
    (hc : s.nextResponseCode = ResultCode.OK)
    (hr : s.randomServerError = false) :
    resultCodeOf (Export s md rb req).1 = some ResultCode.OK := by
  unfold Export
  rw [hh, hr, hm]
  simp [resultCodeOf, hc]

/-- C4: idempotence of the successful export: with passing headers, a
shard that is part of the config, the next-response code OK and the
simulation off, every resubmission of the same ExportRequest, whatever
the random draws, is answered with the result code OK; the state
threaded through the calls is changed only in the sink, so the config
stays unchanged between the calls. -/
theorem C4_idempotent_ok (s : ServerState) (md : Option Metadata) (rb : Nat → Bool)
    (req : ExportRequest)
    (hh : checkRequiredHeaders s.headers md = none)
    (hm : shardIsPartOfConfig req.shard s.config = true)
    (hc : s.nextResponseCode = ResultCode.OK)
    (hr : s.randomServerError = false) :
    ∀ n, resultCodeOf (exportIter md rb req s n).1 = some ResultCode.OK := by
  have hstate : ∀ n,
      ((exportIter md rb req s n).2).headers = s.headers ∧
      ((exportIter md rb req s n).2).randomServerError = s.randomServerError ∧
      ((exportIter md rb req s n).2).nextResponseCode = s.nextResponseCode ∧
      ((exportIter md rb req s n).2).config = s.config := by
    intro n
    induction n with
    | zero =>
      obtain ⟨h1, h2, h3, _, h5⟩ := Export_state_frame s md (rb 0) req
      exact ⟨h1, h2, h3, h5⟩
    | succ n ih =>
      obtain ⟨h1, h2, h3, _, h5⟩ :=
        Export_state_frame ((exportIter md rb req s n).2) md (rb (n + 1)) req
      obtain ⟨i1, i2, i3, i4⟩ := ih
      exact ⟨h1.trans i1, h2.trans i2, h3.trans i3, h5.trans i4⟩
  intro n
  cases n with
  | zero => exact Export_ok_step s md (rb 0) req hh hm hc hr
  | succ n =>
    obtain ⟨i1, i2, i3, i4⟩ := hstate n
    refine Export_ok_step ((exportIter md rb req s n).2) md (rb (n + 1)) req ?_ ?_ ?_ ?_
    · rw [i1]
      exact hh
    · rw [i4]
      exact hm
    · rw [i3]
      exact hc
    · rw [i2]
      exact hr

/-- The all-false random-draw schedule. -/
def rbFalse : Nat → Bool := fun _ => false

/-- C4 witness: three resubmissions of the same matching request against
the plain concrete server all answer OK. -/
theorem C4_witness :
    checkRequiredHeaders srvPlain.headers none = none ∧
    shardIsPartOfConfig reqGood.shard srvPlain.config = true ∧
    srvPlain.nextResponseCode = ResultCode.OK ∧
    srvPlain.randomServerError = false ∧
    resultCodeOf (exportIter none rbFalse reqGood srvPlain 2).1 = some ResultCode.OK :=
  ⟨rfl, by decide, rfl, rfl,
   C4_idempotent_ok srvPlain none rbFalse reqGood rfl (by decide) rfl rfl 2⟩

/-- The counter identities of the encoder sink are preserved by every
sequence of sink calls. -/
theorem applyEvents_counts (evs : List SinkEvent) :
    ∀ es : EncoderSink,
      es.successSpanCount = (es.encodedRecords.map EncodedRecord.spanCount).sum →
      es.failSpanCount = es.failedSpans.length →
      ((applyEvents es evs).successSpanCount =
        ((applyEvents es evs).encodedRecords.map EncodedRecord.spanCount).sum ∧
       (applyEvents es evs).failSpanCount = (applyEvents es evs).failedSpans.length) := by
  induction evs with
  | nil => exact fun es h1 h2 => ⟨h1, h2⟩
  | cons ev rest ih =>
    intro es h1 h2
    cases ev with
    | ready r sp sh =>
      refine ih (onReady es r sp sh) ?_ ?_
      · simp [onReady, h1]
      · simp [onReady, h2]
    | fail sp c =>
      refine ih (onFail es sp c) ?_ ?_
      · simp [onFail, h1]
      · simp [onFail, h2]

/-- C7: after any sequence of onReady and onFail calls starting from the
zero sink, the success counter equals the sum of the span counts of the
appended encoded records and the failure counter equals the number of
appended failed spans; and every onReady call leaves the success counter
at least as large as before. -/
theorem C7_encoderSink_invariant :
    (∀ evs : List SinkEvent,
      (applyEvents emptyEncoderSink evs).successSpanCount =
        ((applyEvents emptyEncoderSink evs).encodedRecords.map EncodedRecord.spanCount).sum ∧
      (applyEvents emptyEncoderSink evs).failSpanCount =
        (applyEvents emptyEncoderSink evs).failedSpans.length) ∧
    (∀ (es : EncoderSink) (r : EncodedRecord) (sp : List JaegerSpan) (sh : ShardInMemConfig),
      es.successSpanCount ≤ (onReady es r sp sh).successSpanCount) := by
  refine ⟨fun evs => applyEvents_counts evs emptyEncoderSink rfl rfl,
    fun es r sp sh => ?_⟩
  show es.successSpanCount ≤ es.successSpanCount + r.spanCount
  exact Nat.le_add_right _ _

/-- C8: the waiting-interval sequence of WaitForN starts at 5 ms, never
decreases, and doubles exactly while it is still below the 500 ms
ceiling. -/
theorem C8_backoff_monotone :
    waitSeq 0 = 5 ∧
    ∀ n, waitSeq n ≤ waitSeq (n + 1) ∧
      (waitSeq n < 500 → waitSeq (n + 1) = 2 * waitSeq n) := by
  refine ⟨rfl, fun n => ?_⟩
  have hstep : waitSeq (n + 1) = if waitSeq n < 500 then 2 * waitSeq n else waitSeq n := rfl
  by_cases h : waitSeq n < 500
  · rw [hstep, if_pos h]
    exact ⟨by omega, fun _ => rfl⟩
  · rw [hstep, if_neg h]
    exact ⟨Nat.le_refl _, fun hlt => absurd hlt h⟩

/-- C8 witness: the first interval is below the ceiling and the second
doubles it. -/
theorem C8_witness : waitSeq 0 < 500 ∧ waitSeq 1 = 2 * waitSeq 0 :=
  ⟨by decide, (C8_backoff_monotone.2 0).2 (by decide)⟩
